import Mathlib

/-!
Shallow embedding of the multipass token codec from `src/lib/index.js`
(class `Multipass`): key derivation, AES-128-CBC encryption of the JSON
serialization of customer attributes, HMAC-SHA256 signing, URL-safe base64
token assembly and login-URL construction.

Modelling conventions:
  * JavaScript runtime values reaching the public entry points are modelled
    by the inductive type `JSVal` (strings, booleans, integer numbers, null,
    undefined, plain objects as ordered association lists, and arrays, which
    in JavaScript can additionally carry named properties that
    `JSON.stringify` ignores).
  * Bytes are `Nat` (a `Buffer` is `List Nat`); realistic byte ranges
    (`< 256`) appear as hypotheses where a theorem needs them.
  * The platform primitives from the `crypto` module and the WHATWG `URL`
    parser are not code of this repository; they are fields of a `JSEnv`
    record. The AES block permutation, HMAC-SHA256 and SHA-256 are abstract
    functions (fallible where the JS primitive can throw), while the CBC
    chaining mode with PKCS#7 padding, standard base64, UTF-8 and
    `encodeURIComponent` are given concrete executable definitions because
    their behaviour is fixed by their standards.
  * A thrown JavaScript exception is an `Except JSError` error result;
    `JSError` distinguishes the `Error` and `TypeError` classes.
  * Mutation of the caller's attributes object is made explicit:
    `generateToken`/`generateLoginUrl` return the post-state of the
    attributes argument next to the token result.
-/

/-- JavaScript runtime values, as far as the codec inspects them. Arrays
carry their element list and, separately, named properties (which JS allows
on arrays but `JSON.stringify` ignores). -/
inductive JSVal where
  | vStr : String → JSVal
  | vBool : Bool → JSVal
  | vNum : Int → JSVal
  | vNull : JSVal
  | vUndefined : JSVal
  | vObj : List (String × JSVal) → JSVal
  | vArr : List JSVal → List (String × JSVal) → JSVal

/-- The JavaScript `typeof` operator. Note `typeof null` and `typeof` of an
array are both the string "object". -/
def JSVal.typeof : JSVal → String
  | .vStr _ => "string"
  | .vBool _ => "boolean"
  | .vNum _ => "number"
  | .vNull => "object"
  | .vUndefined => "undefined"
  | .vObj _ => "object"
  | .vArr _ _ => "object"

/-- JavaScript truthiness: null, undefined, false, 0 and the empty string
are falsy; every object and array (even empty ones) is truthy. -/
def JSVal.truthy : JSVal → Bool
  | .vStr s => !(s = "")
  | .vBool b => b
  | .vNum n => !(n = 0)
  | .vNull => false
  | .vUndefined => false
  | .vObj _ => true
  | .vArr _ _ => true

def JSVal.isNull : JSVal → Bool
  | .vNull => true
  | _ => false

/-- Property lookup on an association list: the first binding wins. -/
def lookupField : List (String × JSVal) → String → JSVal
  | [], _ => .vUndefined
  | (k, v) :: rest, key => if k = key then v else lookupField rest key

/-- Property update on an association list: replace the first binding in
place, or append a new binding at the end (JS property insertion order). -/
def setField : List (String × JSVal) → String → JSVal → List (String × JSVal)
  | [], key, v => [(key, v)]
  | (k, w) :: rest, key, v =>
    if k = key then (key, v) :: rest else (k, w) :: setField rest key v

/-- Reading a named property (`customerData.created_at`). On arrays this
reads the named-property table; on primitives it yields undefined (the code
only reads properties after the object check has passed). -/
def JSVal.getProp : JSVal → String → JSVal
  | .vObj fs, key => lookupField fs key
  | .vArr _ ps, key => lookupField ps key
  | _, _ => .vUndefined

/-- Writing a named property (`customerData.created_at = ...`). On arrays
the write lands in the named-property table, which `JSON.stringify`
ignores; writes to primitives are silently dropped (non-strict JS). -/
def JSVal.setProp : JSVal → String → JSVal → JSVal
  | .vObj fs, key, v => .vObj (setField fs key v)
  | .vArr xs ps, key, v => .vArr xs (setField ps key v)
  | other, _, _ => other

def hexLower (n : Nat) : Char := "0123456789abcdef".data.getD n '0'

def hexUpper (n : Nat) : Char := "0123456789ABCDEF".data.getD n '0'

/-- Escaping of one character inside a JSON string literal, as
`JSON.stringify` performs it. -/
def jsonEscapeChar (c : Char) : List Char :=
  if c = '"' then ['\\', '"']
  else if c = '\\' then ['\\', '\\']
  else if c = '\x08' then ['\\', 'b']
  else if c = '\x09' then ['\\', 't']
  else if c = '\x0a' then ['\\', 'n']
  else if c = '\x0c' then ['\\', 'f']
  else if c = '\x0d' then ['\\', 'r']
  else if c.toNat < 32 then
    ['\\', 'u', '0', '0', hexLower (c.toNat / 16), hexLower (c.toNat % 16)]
  else [c]

/-- A JSON string literal around the escaped characters. -/
def jsonQuote (s : String) : String :=
  "\"" ++ String.mk (s.data.map jsonEscapeChar).flatten ++ "\""

def commaJoin : List String → String
  | [] => ""
  | [s] => s
  | s :: rest => s ++ "," ++ commaJoin rest

mutual

/-- The serialization `JSON.stringify` applies to a value: no whitespace,
object fields in insertion order, undefined-valued fields skipped in
objects, undefined rendered as null inside arrays, named properties of
arrays ignored. -/
def stringifyVal : JSVal → String
  | .vStr s => jsonQuote s
  | .vBool b => if b then "true" else "false"
  | .vNum n => toString n
  | .vNull => "null"
  | .vUndefined => "null"
  | .vObj fs => "\x7b" ++ commaJoin (stringifyFields fs) ++ "\x7d"
  | .vArr xs _ => "[" ++ commaJoin (stringifyElems xs) ++ "]"

def stringifyFields : List (String × JSVal) → List String
  | [] => []
  | (k, v) :: rest =>
    match v with
    | .vUndefined => stringifyFields rest
    | w => (jsonQuote k ++ ":" ++ stringifyVal w) :: stringifyFields rest

def stringifyElems : List JSVal → List String
  | [] => []
  | v :: rest => stringifyVal v :: stringifyElems rest

end

/-- UTF-8 encoding of one code point, on `Nat` with explicit divisions. -/
def utf8EncodeCharNat (n : Nat) : List Nat :=
  if n < 128 then [n]
  else if n < 2048 then [192 + n / 64, 128 + n % 64]
  else if n < 65536 then [224 + n / 4096, 128 + n / 64 % 64, 128 + n % 64]
  else [240 + n / 262144, 128 + n / 4096 % 64, 128 + n / 64 % 64, 128 + n % 64]

/-- The UTF-8 bytes of a string (what `Buffer.from(s, 'utf8')` /
`cipher.update(s, 'utf8')` operate on). -/
def strBytes (s : String) : List Nat :=
  (s.data.map (fun c => utf8EncodeCharNat c.toNat)).flatten

/-- Errors as JavaScript exception values: the codec throws both plain
`Error` and `TypeError` instances. -/
inductive JSError where
  | error : String → JSError
  | typeError : String → JSError
deriving DecidableEq

/-- A parsed WHATWG URL, abstracted to what the codec uses when resolving
the path-absolute reference `/account/login/multipass/...` against it: its
serialized origin (scheme://host[:port]) and whether its path is opaque (a
cannot-be-a-base URL such as mailto:foo@bar or data:text/plain,x), in which
case resolving a path-absolute reference against it throws. -/
structure URLObj where
  origin : String
  opaquePath : Bool
deriving DecidableEq

/-- Model of `new URL(path, base).toString()` for a path-absolute,
already-percent-encoded reference: the constructor throws (`none`; in Node
the error message is "Invalid URL") exactly when the base URL has an opaque
path, and otherwise serializes to the base's origin followed by the path. -/
def resolvePathAbs (u : URLObj) (path : String) : Option String :=
  if u.opaquePath then none else some (u.origin ++ path)

/-- The platform primitives the codec calls but does not define: the
`crypto` module's SHA-256 digest, AES block permutation and HMAC-SHA256
(fallible, since the JS primitives can throw), and the WHATWG `URL`
parser (`none` models the constructor throwing on input that is not an
absolute URL). -/
structure JSEnv where
  sha256 : List Nat → List Nat
  aesBlock : List Nat → List Nat → Except JSError (List Nat)
  hmacSha256 : List Nat → List Nat → Except JSError (List Nat)
  parseURL : String → Option URLObj

/-- PKCS#7 padding to a multiple of the 16-byte AES block size, as
`crypto.createCipheriv('aes-128-cbc', ...)` applies by default. -/
def pkcs7Pad (bs : List Nat) : List Nat :=
  bs ++ List.replicate (16 - bs.length % 16) (16 - bs.length % 16)

/-- CBC chaining over the abstract AES block permutation: each plaintext
block is xored with the previous ciphertext block (initially the IV) and
then enciphered. The input is the padded plaintext. -/
def cbcEncrypt (E : JSEnv) (key : List Nat) (prev bytes : List Nat) :
    Except JSError (List Nat) :=
  if h : bytes = [] then .ok []
  else
    match E.aesBlock key (List.zipWith (fun a b => a ^^^ b) prev (bytes.take 16)) with
    | .error e => .error e
    | .ok c =>
      match cbcEncrypt E key c (bytes.drop 16) with
      | .error e => .error e
      | .ok rest => .ok (c ++ rest)
termination_by bytes.length
decreasing_by
  simp only [List.length_drop]
  have : 0 < bytes.length := List.length_pos.mpr h
  omega

/-- The same CBC chaining over a total block permutation `A`; used to state
results about runs in which the cipher primitive does not throw. -/
def cbcTotal (A : List Nat → List Nat → List Nat) (key prev bytes : List Nat) :
    List Nat :=
  if h : bytes = [] then []
  else
    let c := A key (List.zipWith (fun a b => a ^^^ b) prev (bytes.take 16))
    c ++ cbcTotal A key c (bytes.drop 16)
termination_by bytes.length
decreasing_by
  simp only [List.length_drop]
  have : 0 < bytes.length := List.length_pos.mpr h
  omega

def b64Alphabet : List Char :=
  "ABCDEFGHIJKLMNOPQRSTUVWXYZabcdefghijklmnopqrstuvwxyz0123456789+/".data

def b64Char (n : Nat) : Char := b64Alphabet.getD n 'A'

/-- Standard base64 with '=' padding, as `Buffer.prototype.toString`
produces for the 'base64' encoding. -/
def base64Encode : List Nat → List Char
  | [] => []
  | [a] => [b64Char (a / 4), b64Char (a % 4 * 16), '=', '=']
  | [a, b] => [b64Char (a / 4), b64Char (a % 4 * 16 + b / 16), b64Char (b % 16 * 4), '=']
  | a :: b :: c :: rest =>
    b64Char (a / 4) :: b64Char (a % 4 * 16 + b / 16) ::
      b64Char (b % 16 * 4 + c / 64) :: b64Char (c % 64) :: base64Encode rest

/-- The URL-safe rewrite from `generateToken`, on the character list:
replace every '+' with '-', then every '/' with '_', then drop every '='
(mirroring the three chained `.replace` calls with global regexps). -/
def urlSafeChars (cs : List Char) : List Char :=
  ((cs.map (fun c => if c = '+' then '-' else c)).map
      (fun c => if c = '/' then '_' else c)).filter (fun c => c != '=')

/-- The character set `encodeURIComponent` leaves unescaped:
ASCII alphanumerics and - _ . ! ~ * ' ( ). -/
def uriUnreservedChar (c : Char) : Bool :=
  c.isAlphanum || c == '-' || c == '_' || c == '.' || c == '!' || c == '~' ||
    c == '*' || c.toNat == 39 || c == '(' || c == ')'

def pctEncodeByte (b : Nat) : List Char :=
  ['%', hexUpper (b / 16 % 16), hexUpper (b % 16)]

/-- The `encodeURIComponent` builtin: unreserved characters pass through,
every other character is percent-encoded byte by byte in UTF-8. -/
def encodeURIComponent (s : String) : String :=
  String.mk ((s.data.map (fun c =>
    if uriUnreservedChar c then [c]
    else ((utf8EncodeCharNat c.toNat).map pctEncodeByte).flatten)).flatten)

/-- ASCII whitespace test backing the model of `String.prototype.trim`. -/
def jsSpace (c : Char) : Bool :=
  c == ' ' || c == '\t' || c == '\n' || c == '\x0d' || c == '\x0b' || c == '\x0c'

/-- Model of `String.prototype.trim` (restricted to ASCII whitespace):
drop whitespace from both ends. -/
def jsTrim (s : String) : String :=
  String.mk (((s.data.dropWhile jsSpace).reverse.dropWhile jsSpace).reverse)

/-- The codec instance: the two derived 16-byte keys and the validated
store URL, immutable once constructed. -/
structure Multipass where
  encryptionKey : List Nat
  signatureKey : List Nat
  storeUrl : URLObj

/-- The `Multipass` constructor: validate that both arguments are strings
that are non-empty after trimming, parse the store URL, derive the SHA-256
hash of the UTF-8 bytes of the secret, check it has 32 bytes, and split it
into the encryption key (`hash.slice(0, 16)`) and the signature key
(`hash.slice(16, 32)`). A thrown exception is an error result and
constructs no instance. The availability check on `crypto.createHash` is
discharged statically by `JSEnv` supplying `sha256`. -/
def Multipass.construct (E : JSEnv) (multipassSecret storeUrl : JSVal) :
    Except JSError Multipass :=
  match multipassSecret with
  | .vStr s =>
    if (jsTrim s).length = 0 then
      .error (.error "Invalid multipassSecret: Expected a non-empty string.")
    else
      match storeUrl with
      | .vStr u =>
        if (jsTrim u).length = 0 then
          .error (.error "Invalid storeUrl: Expected a non-empty string.")
        else
          match E.parseURL u with
          | none => .error (.error "Invalid storeUrl: Must be a valid URL string.")
          | some urlObj =>
            let hash := E.sha256 (strBytes s)
            if hash.length ≠ 32 then
              .error (.error "Unexpected hash length. Ensure SHA-256 is supported.")
            else
              .ok ⟨hash.take 16, (hash.drop 16).take 16, urlObj⟩
      | _ => .error (.error "Invalid storeUrl: Expected a non-empty string.")
  | _ => .error (.error "Invalid multipassSecret: Expected a non-empty string.")

/-- The `encrypt` method: reject non-object or null input (the thrown
`Error` is caught, logged and re-thrown unchanged by the surrounding
try/catch), then return IV || AES-128-CBC ciphertext of the UTF-8 bytes of
`JSON.stringify(customerData)`. The fresh random IV of `crypto.randomBytes(16)`
is the explicit `iv` argument. Cipher-primitive errors propagate unchanged. -/
def Multipass.encrypt (E : JSEnv) (m : Multipass) (iv : List Nat)
    (customerData : JSVal) : Except JSError (List Nat) :=
  if customerData.typeof != "object" || customerData.isNull then
    .error (.error "Invalid input: customerData must be a non-null object")
  else
    match cbcEncrypt E m.encryptionKey iv (pkcs7Pad (strBytes (stringifyVal customerData))) with
    | .error e => .error e
    | .ok ct => .ok (iv ++ ct)

/-- The `sign` method: HMAC-SHA256 of the input under the signature key.
The `Buffer.isBuffer` guard is discharged statically by the embedding
(the input type only represents Buffers); the try/catch re-throws any
primitive error unchanged. -/
def Multipass.sign (E : JSEnv) (m : Multipass) (ciphertext : List Nat) :
    Except JSError (List Nat) :=
  E.hmacSha256 m.signatureKey ciphertext

/-- The `generateToken` method. The pair returned is (post-state of the
caller's `customerData` argument, thrown-or-returned result): the
`created_at` injection runs before the try block and mutates the caller's
object whenever the current `created_at` value is falsy; any error thrown
by encrypt or sign is caught and replaced by `Error('Token generation
failed')`. `now` is the value of `new Date().toISOString()`. -/
def Multipass.generateToken (E : JSEnv) (m : Multipass) (iv : List Nat)
    (now : String) (customerData : JSVal) : JSVal × Except JSError String :=
  if customerData.typeof != "object" || customerData.isNull then
    (customerData, .error (.typeError "customerData must be a non-null object"))
  else
    let cd := if (customerData.getProp "created_at").truthy then customerData
              else customerData.setProp "created_at" (.vStr now)
    match m.encrypt E iv cd with
    | .error _ => (cd, .error (.error "Token generation failed"))
    | .ok ciphertext =>
      match m.sign E ciphertext with
      | .error _ => (cd, .error (.error "Token generation failed"))
      | .ok signature =>
        (cd, .ok (String.mk (urlSafeChars (base64Encode (ciphertext ++ signature)))))

/-- The `generateLoginUrl` method: validate (`!customerData` and the
`typeof` check), call `generateToken` (whose exceptions propagate
unwrapped), reject an empty token, percent-encode the token and resolve
the path `/account/login/multipass/<token>` against the store URL inside a
try/catch. `new URL(path, this.storeUrl)` throws when the store URL has an
opaque path (e.g. a mailto: base, which the constructor accepts); the catch
re-throws `Failed to construct login URL: ` followed by the underlying
message ("Invalid URL"). -/
def Multipass.generateLoginUrl (E : JSEnv) (m : Multipass) (iv : List Nat)
    (now : String) (customerData : JSVal) : JSVal × Except JSError String :=
  if !customerData.truthy || customerData.typeof != "object" then
    (customerData, .error (.error "Invalid customerData: Expected a non-empty object"))
  else
    match m.generateToken E iv now customerData with
    | (cd, .error e) => (cd, .error e)
    | (cd, .ok token) =>
      if token = "" then
        (cd, .error (.error "Invalid token generated: Expected a non-empty string"))
      else
        match resolvePathAbs m.storeUrl ("/account/login/multipass/" ++ encodeURIComponent token) with
        | some url => (cd, .ok url)
        | none => (cd, .error (.error "Failed to construct login URL: Invalid URL"))

/-! ### Basic lemmas about the JS value model -/

theorem typeof_setProp (cd : JSVal) (k : String) (v : JSVal) :
    (cd.setProp k v).typeof = cd.typeof := by
  cases cd <;> rfl

theorem isNull_setProp (cd : JSVal) (k : String) (v : JSVal) :
    (cd.setProp k v).isNull = cd.isNull := by
  cases cd <;> rfl

/-! ### PKCS#7 padding facts -/

theorem pkcs7Pad_length (bs : List Nat) :
    (pkcs7Pad bs).length = bs.length + (16 - bs.length % 16) := by
  simp [pkcs7Pad]

theorem pkcs7Pad_mod (bs : List Nat) : (pkcs7Pad bs).length % 16 = 0 := by
  rw [pkcs7Pad_length]
  omega

theorem pkcs7Pad_pos (bs : List Nat) : 0 < (pkcs7Pad bs).length := by
  rw [pkcs7Pad_length]
  omega

/-! ### CBC mode lemmas -/

theorem cbcEncrypt_eq_total (E : JSEnv) (A : List Nat → List Nat → List Nat)
    (hA : ∀ k b, E.aesBlock k b = .ok (A k b)) :
    ∀ n key prev bytes, bytes.length ≤ n →
      cbcEncrypt E key prev bytes = .ok (cbcTotal A key prev bytes) := by
  intro n
  induction n with
  | zero =>
    intro key prev bytes hb
    have hbe : bytes = [] := List.eq_nil_of_length_eq_zero (Nat.le_zero.mp hb)
    subst hbe
    simp [cbcEncrypt, cbcTotal]
  | succ n ih =>
    intro key prev bytes hb
    by_cases hbe : bytes = []
    · subst hbe
      simp [cbcEncrypt, cbcTotal]
    · rw [cbcEncrypt, cbcTotal]
      have hlen : 0 < bytes.length := List.length_pos.mpr hbe
      have hdrop : (bytes.drop 16).length ≤ n := by
        simp only [List.length_drop]
        omega
      simp only [dif_neg hbe, hA, ih _ _ _ hdrop]

theorem cbcTotal_length (A : List Nat → List Nat → List Nat)
    (hA16 : ∀ k b, (A k b).length = 16) :
    ∀ n key prev bytes, bytes.length ≤ n → bytes.length % 16 = 0 →
      (cbcTotal A key prev bytes).length = bytes.length := by
  intro n
  induction n with
  | zero =>
    intro key prev bytes hb _
    have hbe : bytes = [] := List.eq_nil_of_length_eq_zero (Nat.le_zero.mp hb)
    subst hbe
    simp [cbcTotal]
  | succ n ih =>
    intro key prev bytes hb hmod
    by_cases hbe : bytes = []
    · subst hbe
      simp [cbcTotal]
    · rw [cbcTotal]
      have hlen : 0 < bytes.length := List.length_pos.mpr hbe
      have hdrop : (bytes.drop 16).length ≤ n := by
        simp only [List.length_drop]
        omega
      have hdropmod : (bytes.drop 16).length % 16 = 0 := by
        simp only [List.length_drop]
        omega
      simp only [dif_neg hbe, List.length_append, hA16, ih _ _ _ hdrop hdropmod,
        List.length_drop]
      omega

theorem cbcTotal_bytes_lt (A : List Nat → List Nat → List Nat)
    (hAb : ∀ k b, ∀ x ∈ A k b, x < 256) :
    ∀ n key prev bytes, bytes.length ≤ n →
      ∀ x ∈ cbcTotal A key prev bytes, x < 256 := by
  intro n
  induction n with
  | zero =>
    intro key prev bytes hb
    have hbe : bytes = [] := List.eq_nil_of_length_eq_zero (Nat.le_zero.mp hb)
    subst hbe
    simp [cbcTotal]
  | succ n ih =>
    intro key prev bytes hb x hx
    by_cases hbe : bytes = []
    · subst hbe
      simp [cbcTotal] at hx
    · rw [cbcTotal] at hx
      have hlen : 0 < bytes.length := List.length_pos.mpr hbe
      have hdrop : (bytes.drop 16).length ≤ n := by
        simp only [List.length_drop]
        omega
      simp only [dif_neg hbe, List.mem_append] at hx
      rcases hx with hx | hx
      · exact hAb _ _ _ hx
      · exact ih _ _ _ hdrop _ hx

theorem cbcEncrypt_ok_length (E : JSEnv)
    (hA : ∀ k b r, E.aesBlock k b = .ok r → r.length = 16) :
    ∀ n key prev bytes out, bytes.length ≤ n → bytes.length % 16 = 0 →
      cbcEncrypt E key prev bytes = .ok out → out.length = bytes.length := by
  intro n
  induction n with
  | zero =>
    intro key prev bytes out hb _ hok
    have hbe : bytes = [] := List.eq_nil_of_length_eq_zero (Nat.le_zero.mp hb)
    subst hbe
    simp [cbcEncrypt] at hok
    simp [← hok]
  | succ n ih =>
    intro key prev bytes out hb hmod hok
    by_cases hbe : bytes = []
    · subst hbe
      simp [cbcEncrypt] at hok
      simp [← hok]
    · rw [cbcEncrypt] at hok
      have hlen : 0 < bytes.length := List.length_pos.mpr hbe
      have hdrop : (bytes.drop 16).length ≤ n := by
        simp only [List.length_drop]
        omega
      have hdropmod : (bytes.drop 16).length % 16 = 0 := by
        simp only [List.length_drop]
        omega
      simp only [dif_neg hbe] at hok
      split at hok
      · cases hok
      · rename_i c hc
        split at hok
        · cases hok
        · rename_i rest hr
          cases hok
          have h1 : c.length = 16 := hA _ _ _ hc
          have h2 : rest.length = (bytes.drop 16).length := ih _ _ _ _ hdrop hdropmod hr
          simp only [List.length_append, h1, h2, List.length_drop]
          omega

/-! ### Base64 lemmas -/

theorem b64Char_mem (n : Nat) : b64Char n ∈ b64Alphabet := by
  unfold b64Char
  rcases Nat.lt_or_ge n b64Alphabet.length with h | h
  · rw [List.getD_eq_getElem _ _ h]
    exact List.getElem_mem h
  · rw [List.getD_eq_default _ _ h]
    decide

theorem eq_not_mem_b64Alphabet : '=' ∉ b64Alphabet := by decide

theorem b64Char_ne_eq (n : Nat) : b64Char n ≠ '=' := by
  intro h
  exact eq_not_mem_b64Alphabet (h ▸ b64Char_mem n)

theorem b64Char_inj : ∀ m, m < 64 → ∀ n, n < 64 → b64Char m = b64Char n → m = n := by
  decide

theorem base64Encode_chars :
    ∀ bs : List Nat, ∀ c ∈ base64Encode bs, c ∈ b64Alphabet ∨ c = '=' := by
  intro bs
  induction bs using base64Encode.induct with
  | case1 => intro c hc; simp [base64Encode] at hc
  | case2 a =>
    intro c hc
    simp only [base64Encode, List.mem_cons, List.not_mem_nil, or_false] at hc
    rcases hc with rfl | rfl | rfl | rfl
    · exact .inl (b64Char_mem _)
    · exact .inl (b64Char_mem _)
    · exact .inr rfl
    · exact .inr rfl
  | case3 a b =>
    intro c hc
    simp only [base64Encode, List.mem_cons, List.not_mem_nil, or_false] at hc
    rcases hc with rfl | rfl | rfl | rfl
    · exact .inl (b64Char_mem _)
    · exact .inl (b64Char_mem _)
    · exact .inl (b64Char_mem _)
    · exact .inr rfl
  | case4 a b c rest ih =>
    intro x hx
    simp only [base64Encode, List.mem_cons] at hx
    rcases hx with rfl | rfl | rfl | rfl | hx
    · exact .inl (b64Char_mem _)
    · exact .inl (b64Char_mem _)
    · exact .inl (b64Char_mem _)
    · exact .inl (b64Char_mem _)
    · exact ih x hx

/-- The number of '=' padding characters standard base64 appends for an
input of the given byte length. -/
def b64PadCount (L : Nat) : Nat :=
  if L % 3 = 1 then 2 else if L % 3 = 2 then 1 else 0

theorem b64Char_bne_eq (n : Nat) : (b64Char n != '=') = true :=
  bne_iff_ne.mpr (b64Char_ne_eq n)

theorem base64Encode_split (bs : List Nat) :
    base64Encode bs =
      (base64Encode bs).filter (fun c => c != '=') ++
        List.replicate (b64PadCount bs.length) '=' := by
  induction bs using base64Encode.induct with
  | case1 => rfl
  | case2 a =>
    have hpc : b64PadCount ([a] : List Nat).length = 2 := rfl
    rw [hpc]
    simp [base64Encode, List.filter_cons, b64Char_bne_eq, List.replicate]
  | case3 a b =>
    have hpc : b64PadCount ([a, b] : List Nat).length = 1 := rfl
    rw [hpc]
    simp [base64Encode, List.filter_cons, b64Char_bne_eq, List.replicate]
  | case4 a b c rest ih =>
    have hpc : b64PadCount (a :: b :: c :: rest : List Nat).length = b64PadCount rest.length := by
      simp only [List.length_cons, b64PadCount]
      split_ifs <;> omega
    rw [hpc]
    simp only [base64Encode, List.filter_cons, b64Char_bne_eq, if_true]
    simp only [List.cons_append, List.cons.injEq, true_and]
    exact ih

/-! ### URL-safe rewrite lemmas -/

/-- The composed character rewrite performed by the two chained
`.replace` calls of `generateToken`. -/
def urlMapChar (c : Char) : Char :=
  if c = '+' then '-' else if c = '/' then '_' else c

theorem urlSafeChars_eq (cs : List Char) :
    urlSafeChars cs = (cs.filter (fun c => c != '=')).map urlMapChar := by
  unfold urlSafeChars
  rw [List.map_map]
  have hcomp : ((fun c => if c = '/' then '_' else c) ∘ fun c => if c = '+' then '-' else c)
      = urlMapChar := by
    funext c
    by_cases h1 : c = '+'
    · subst h1; rfl
    · by_cases h2 : c = '/'
      · subst h2; rfl
      · simp [urlMapChar, Function.comp, h1, h2]
  rw [hcomp]
  rw [List.filter_map]
  have hpres : ((fun c => c != '=') ∘ urlMapChar) = (fun c => c != '=') := by
    funext c
    by_cases h1 : c = '+'
    · subst h1; rfl
    · by_cases h2 : c = '/'
      · subst h2; rfl
      · simp [urlMapChar, Function.comp, h1, h2]
  rw [hpres]

set_option maxRecDepth 10000 in
theorem urlMapChar_props_bool :
    b64Alphabet.all (fun c => uriUnreservedChar (urlMapChar c) &&
      !(urlMapChar c == '+') && !(urlMapChar c == '/') && !(urlMapChar c == '=')) = true := by
  decide

theorem urlMapChar_props :
    ∀ c ∈ b64Alphabet,
      uriUnreservedChar (urlMapChar c) = true ∧ urlMapChar c ≠ '+' ∧
        urlMapChar c ≠ '/' ∧ urlMapChar c ≠ '=' := by
  intro c hc
  have h := List.all_eq_true.mp urlMapChar_props_bool c hc
  simp only [Bool.and_eq_true, Bool.not_eq_true', beq_eq_false_iff_ne] at h
  exact ⟨h.1.1.1, h.1.1.2, h.1.2, h.2⟩

set_option maxRecDepth 100000 in
theorem urlMapChar_inj_on_bool :
    b64Alphabet.all (fun c1 => b64Alphabet.all (fun c2 =>
      !(urlMapChar c1 == urlMapChar c2) || (c1 == c2))) = true := by
  decide

theorem urlMapChar_inj_on :
    ∀ c1 ∈ b64Alphabet, ∀ c2 ∈ b64Alphabet, urlMapChar c1 = urlMapChar c2 → c1 = c2 := by
  intro c1 h1 c2 h2 heq
  have h := List.all_eq_true.mp (List.all_eq_true.mp urlMapChar_inj_on_bool c1 h1) c2 h2
  simp only [Bool.or_eq_true, Bool.not_eq_true', beq_eq_false_iff_ne, beq_iff_eq] at h
  rcases h with h | h
  · exact absurd heq h
  · exact h

theorem urlSafeChars_b64_spec (bs : List Nat) :
    ∀ c ∈ urlSafeChars (base64Encode bs),
      uriUnreservedChar c = true ∧ c ≠ '+' ∧ c ≠ '/' ∧ c ≠ '=' := by
  intro c hc
  rw [urlSafeChars_eq] at hc
  simp only [List.mem_map, List.mem_filter] at hc
  obtain ⟨c0, ⟨hc0mem, hc0ne⟩, rfl⟩ := hc
  have hne : c0 ≠ '=' := by simpa using hc0ne
  rcases base64Encode_chars bs c0 hc0mem with h | h
  · exact urlMapChar_props c0 h
  · exact absurd h hne

theorem urlSafeChars_b64_ne_nil (bs : List Nat) (hbs : bs ≠ []) :
    urlSafeChars (base64Encode bs) ≠ [] := by
  rw [urlSafeChars_eq]
  obtain ⟨a, rest, rfl⟩ : ∃ a rest, bs = a :: rest := by
    cases bs with
    | nil => exact absurd rfl hbs
    | cons a rest => exact ⟨a, rest, rfl⟩
  have hhead : ∃ tail, base64Encode (a :: rest) = b64Char (a / 4) :: tail := by
    cases rest with
    | nil => exact ⟨_, rfl⟩
    | cons b rest2 =>
      cases rest2 with
      | nil => exact ⟨_, rfl⟩
      | cons c rest3 => exact ⟨_, rfl⟩
  obtain ⟨tail, heq⟩ := hhead
  rw [heq, List.filter_cons]
  simp [b64Char_bne_eq]

theorem map_urlMapChar_inj :
    ∀ l1 l2 : List Char, (∀ c ∈ l1, c ∈ b64Alphabet) → (∀ c ∈ l2, c ∈ b64Alphabet) →
      l1.map urlMapChar = l2.map urlMapChar → l1 = l2 := by
  intro l1
  induction l1 with
  | nil =>
    intro l2 _ _ h
    cases l2 with
    | nil => rfl
    | cons c t => simp at h
  | cons c l ih =>
    intro l2 hm1 hm2 h
    cases l2 with
    | nil => simp at h
    | cons c2 l2t =>
      simp only [List.map_cons, List.cons.injEq] at h
      have hc : c = c2 :=
        urlMapChar_inj_on c (hm1 c (by simp)) c2 (hm2 c2 (by simp)) h.1
      have hl : l = l2t :=
        ih l2t (fun x hx => hm1 x (by simp [hx])) (fun x hx => hm2 x (by simp [hx])) h.2
      rw [hc, hl]

theorem base64Encode_inj :
    ∀ bs1 bs2 : List Nat, (∀ b ∈ bs1, b < 256) → (∀ b ∈ bs2, b < 256) →
      bs1.length = bs2.length → base64Encode bs1 = base64Encode bs2 → bs1 = bs2 := by
  intro bs1
  induction bs1 using base64Encode.induct with
  | case1 =>
    intro bs2 _ _ hlen _
    cases bs2 with
    | nil => rfl
    | cons a t => simp at hlen
  | case2 a =>
    intro bs2 hb1 hb2 hlen henc
    match bs2, hlen with
    | [a2], _ =>
      simp only [base64Encode, List.cons.injEq, and_true] at henc
      have ha : a < 256 := hb1 a (by simp)
      have ha2 : a2 < 256 := hb2 a2 (by simp)
      have e1 : a / 4 = a2 / 4 :=
        b64Char_inj _ (by omega) _ (by omega) henc.1
      have e2 : a % 4 * 16 = a2 % 4 * 16 :=
        b64Char_inj _ (by omega) _ (by omega) henc.2
      have : a = a2 := by omega
      rw [this]
  | case3 a b =>
    intro bs2 hb1 hb2 hlen henc
    match bs2, hlen with
    | [a2, b2], _ =>
      simp only [base64Encode, List.cons.injEq, and_true] at henc
      have ha : a < 256 := hb1 a (by simp)
      have hb : b < 256 := hb1 b (by simp)
      have ha2 : a2 < 256 := hb2 a2 (by simp)
      have hb2' : b2 < 256 := hb2 b2 (by simp)
      have e1 : a / 4 = a2 / 4 :=
        b64Char_inj _ (by omega) _ (by omega) henc.1
      have e2 : a % 4 * 16 + b / 16 = a2 % 4 * 16 + b2 / 16 :=
        b64Char_inj _ (by omega) _ (by omega) henc.2.1
      have e3 : b % 16 * 4 = b2 % 16 * 4 :=
        b64Char_inj _ (by omega) _ (by omega) henc.2.2
      have h1 : a = a2 := by omega
      have h2 : b = b2 := by omega
      rw [h1, h2]
  | case4 a b c rest ih =>
    intro bs2 hb1 hb2 hlen henc
    match bs2 with
    | [] => simp at hlen
    | [a2] => simp [base64Encode] at hlen
    | [a2, b2] => simp [base64Encode] at hlen
    | a2 :: b2 :: c2 :: rest2 =>
      simp only [base64Encode, List.cons.injEq] at henc
      have ha : a < 256 := hb1 a (by simp)
      have hb : b < 256 := hb1 b (by simp)
      have hc : c < 256 := hb1 c (by simp)
      have ha2 : a2 < 256 := hb2 a2 (by simp)
      have hbb2 : b2 < 256 := hb2 b2 (by simp)
      have hcc2 : c2 < 256 := hb2 c2 (by simp)
      have e1 : a / 4 = a2 / 4 :=
        b64Char_inj _ (by omega) _ (by omega) henc.1
      have e2 : a % 4 * 16 + b / 16 = a2 % 4 * 16 + b2 / 16 :=
        b64Char_inj _ (by omega) _ (by omega) henc.2.1
      have e3 : b % 16 * 4 + c / 64 = b2 % 16 * 4 + c2 / 64 :=
        b64Char_inj _ (by omega) _ (by omega) henc.2.2.1
      have e4 : c % 64 = c2 % 64 :=
        b64Char_inj _ (by omega) _ (by omega) henc.2.2.2.1
      have h1 : a = a2 := by omega
      have h2 : b = b2 := by omega
      have h3 : c = c2 := by omega
      have hrest : rest = rest2 := by
        refine ih rest2 (fun x hx => hb1 x (by simp [hx])) (fun x hx => hb2 x (by simp [hx])) ?_ henc.2.2.2.2
        simp only [List.length_cons] at hlen
        omega
      rw [h1, h2, h3, hrest]

theorem urlSafeChars_b64_inj (bs1 bs2 : List Nat)
    (h1 : ∀ b ∈ bs1, b < 256) (h2 : ∀ b ∈ bs2, b < 256)
    (hlen : bs1.length = bs2.length)
    (heq : urlSafeChars (base64Encode bs1) = urlSafeChars (base64Encode bs2)) :
    bs1 = bs2 := by
  rw [urlSafeChars_eq, urlSafeChars_eq] at heq
  have hmem1 : ∀ c ∈ (base64Encode bs1).filter (fun c => c != '='), c ∈ b64Alphabet := by
    intro c hc
    simp only [List.mem_filter] at hc
    rcases base64Encode_chars bs1 c hc.1 with h | h
    · exact h
    · exact absurd h (by simpa using hc.2)
  have hmem2 : ∀ c ∈ (base64Encode bs2).filter (fun c => c != '='), c ∈ b64Alphabet := by
    intro c hc
    simp only [List.mem_filter] at hc
    rcases base64Encode_chars bs2 c hc.1 with h | h
    · exact h
    · exact absurd h (by simpa using hc.2)
  have ht : (base64Encode bs1).filter (fun c => c != '=') =
      (base64Encode bs2).filter (fun c => c != '=') :=
    map_urlMapChar_inj _ _ hmem1 hmem2 heq
  have henc : base64Encode bs1 = base64Encode bs2 := by
    rw [base64Encode_split bs1, base64Encode_split bs2, ht, hlen]
  exact base64Encode_inj bs1 bs2 h1 h2 hlen henc

/-! ### encodeURIComponent on URL-safe tokens -/

theorem flatten_singletons : ∀ l : List Char, (l.map (fun c => [c])).flatten = l := by
  intro l
  induction l with
  | nil => rfl
  | cons c t ih => simp [ih]

theorem encodeURIComponent_of_unreserved (s : String)
    (h : ∀ c ∈ s.data, uriUnreservedChar c = true) : encodeURIComponent s = s := by
  unfold encodeURIComponent
  have hmap : s.data.map (fun c =>
      if uriUnreservedChar c then [c]
      else ((utf8EncodeCharNat c.toNat).map pctEncodeByte).flatten) =
      s.data.map (fun c => [c]) := by
    apply List.map_congr_left
    intro c hc
    rw [if_pos (h c hc)]
  rw [hmap, flatten_singletons]

/-! ### Convenience forms of the CBC lemmas -/

theorem cbcEncrypt_eq_total' (E : JSEnv) (A : List Nat → List Nat → List Nat)
    (hA : ∀ k b, E.aesBlock k b = .ok (A k b)) (key prev bytes : List Nat) :
    cbcEncrypt E key prev bytes = .ok (cbcTotal A key prev bytes) :=
  cbcEncrypt_eq_total E A hA bytes.length key prev bytes (Nat.le_refl _)

theorem cbcTotal_length' (A : List Nat → List Nat → List Nat)
    (hA16 : ∀ k b, (A k b).length = 16) (key prev bytes : List Nat)
    (hmod : bytes.length % 16 = 0) :
    (cbcTotal A key prev bytes).length = bytes.length :=
  cbcTotal_length A hA16 bytes.length key prev bytes (Nat.le_refl _) hmod

theorem cbcTotal_bytes_lt' (A : List Nat → List Nat → List Nat)
    (hAb : ∀ k b, ∀ x ∈ A k b, x < 256) (key prev bytes : List Nat) :
    ∀ x ∈ cbcTotal A key prev bytes, x < 256 :=
  cbcTotal_bytes_lt A hAb bytes.length key prev bytes (Nat.le_refl _)

theorem cbcEncrypt_ok_length' (E : JSEnv)
    (hA : ∀ k b r, E.aesBlock k b = .ok r → r.length = 16) (key prev bytes out : List Nat)
    (hmod : bytes.length % 16 = 0) (hok : cbcEncrypt E key prev bytes = .ok out) :
    out.length = bytes.length :=
  cbcEncrypt_ok_length E hA bytes.length key prev bytes out (Nat.le_refl _) hmod hok

/-! ### Structural lemmas about the codec operations -/

theorem encrypt_ok (E : JSEnv) (A : List Nat → List Nat → List Nat)
    (hA : ∀ k b, E.aesBlock k b = .ok (A k b)) (m : Multipass) (iv : List Nat)
    (cd : JSVal) (hobj : cd.typeof = "object") (hnn : cd.isNull = false) :
    m.encrypt E iv cd =
      .ok (iv ++ cbcTotal A m.encryptionKey iv (pkcs7Pad (strBytes (stringifyVal cd)))) := by
  have hcond : (cd.typeof != "object" || cd.isNull) = false := by
    rw [hobj, hnn]
    simp
  unfold Multipass.encrypt
  simp only [hcond]
  rw [if_neg Bool.false_ne_true]
  rw [cbcEncrypt_eq_total' E A hA]

theorem encrypt_invalid (E : JSEnv) (m : Multipass) (iv : List Nat) (cd : JSVal)
    (h : ¬(cd.typeof = "object" ∧ cd.isNull = false)) :
    m.encrypt E iv cd =
      .error (.error "Invalid input: customerData must be a non-null object") := by
  unfold Multipass.encrypt
  have hcond : (cd.typeof != "object" || cd.isNull) = true := by
    rcases not_and_or.mp h with h1 | h1
    · simp [bne_iff_ne, h1]
    · have : cd.isNull = true := by
        cases hh : cd.isNull with
        | true => rfl
        | false => exact absurd hh h1
      simp [this]
  rw [if_pos hcond]

theorem setProp_typeof_isNull (cd : JSVal) (now : String)
    (hobj : cd.typeof = "object") (hnn : cd.isNull = false) :
    (if (cd.getProp "created_at").truthy then cd
     else cd.setProp "created_at" (.vStr now)).typeof = "object" ∧
    (if (cd.getProp "created_at").truthy then cd
     else cd.setProp "created_at" (.vStr now)).isNull = false := by
  by_cases h : (cd.getProp "created_at").truthy
  · rw [if_pos h]
    exact ⟨hobj, hnn⟩
  · rw [if_neg h]
    exact ⟨(typeof_setProp cd _ _).trans hobj, (isNull_setProp cd _ _).trans hnn⟩

theorem generateToken_ok (E : JSEnv) (A H : List Nat → List Nat → List Nat)
    (hA : ∀ k b, E.aesBlock k b = .ok (A k b))
    (hH : ∀ k msg, E.hmacSha256 k msg = .ok (H k msg))
    (m : Multipass) (iv : List Nat) (now : String) (cd : JSVal)
    (hobj : cd.typeof = "object") (hnn : cd.isNull = false) :
    m.generateToken E iv now cd =
      (let cd2 := if (cd.getProp "created_at").truthy then cd
                  else cd.setProp "created_at" (.vStr now)
       let ct := iv ++ cbcTotal A m.encryptionKey iv (pkcs7Pad (strBytes (stringifyVal cd2)))
       (cd2, .ok (String.mk (urlSafeChars (base64Encode (ct ++ H m.signatureKey ct)))))) := by
  have hcond : (cd.typeof != "object" || cd.isNull) = false := by
    rw [hobj, hnn]
    simp
  unfold Multipass.generateToken
  simp only [hcond]
  rw [if_neg Bool.false_ne_true]
  obtain ⟨hobj2, hnn2⟩ := setProp_typeof_isNull cd now hobj hnn
  rw [encrypt_ok E A hA m iv _ hobj2 hnn2]
  simp only [Multipass.sign, hH]

theorem generateToken_invalid (E : JSEnv) (m : Multipass) (iv : List Nat)
    (now : String) (cd : JSVal) (h : ¬(cd.typeof = "object" ∧ cd.isNull = false)) :
    m.generateToken E iv now cd =
      (cd, .error (.typeError "customerData must be a non-null object")) := by
  unfold Multipass.generateToken
  have hcond : (cd.typeof != "object" || cd.isNull) = true := by
    rcases not_and_or.mp h with h1 | h1
    · simp [bne_iff_ne, h1]
    · have : cd.isNull = true := by
        cases hh : cd.isNull with
        | true => rfl
        | false => exact absurd hh h1
      simp [this]
  rw [if_pos hcond]

theorem truthy_isNull_false (cd : JSVal) (h : cd.truthy = true) : cd.isNull = false := by
  cases cd <;> simp_all [JSVal.truthy, JSVal.isNull]

theorem string_mk_ne_empty (l : List Char) (h : l ≠ []) : String.mk l ≠ "" := by
  intro hc
  exact h (congrArg String.data hc)

theorem generateLoginUrl_ok (E : JSEnv) (A H : List Nat → List Nat → List Nat)
    (hA : ∀ k b, E.aesBlock k b = .ok (A k b))
    (hH : ∀ k msg, E.hmacSha256 k msg = .ok (H k msg))
    (m : Multipass) (iv : List Nat) (now : String) (cd : JSVal)
    (htr : cd.truthy = true) (hobj : cd.typeof = "object") (hiv : iv ≠ [])
    (hop : m.storeUrl.opaquePath = false) :
    m.generateLoginUrl E iv now cd =
      (let cd2 := if (cd.getProp "created_at").truthy then cd
                  else cd.setProp "created_at" (.vStr now)
       let ct := iv ++ cbcTotal A m.encryptionKey iv (pkcs7Pad (strBytes (stringifyVal cd2)))
       let tok := String.mk (urlSafeChars (base64Encode (ct ++ H m.signatureKey ct)))
       (cd2, .ok (m.storeUrl.origin ++ "/account/login/multipass/" ++ encodeURIComponent tok))) := by
  have hnn : cd.isNull = false := truthy_isNull_false cd htr
  have hcond : (!cd.truthy || cd.typeof != "object") = false := by
    rw [htr, hobj]
    simp
  unfold Multipass.generateLoginUrl
  simp only [hcond]
  rw [if_neg Bool.false_ne_true]
  rw [generateToken_ok E A H hA hH m iv now cd hobj hnn]
  have htok : String.mk (urlSafeChars (base64Encode
      ((iv ++ cbcTotal A m.encryptionKey iv (pkcs7Pad (strBytes (stringifyVal
        (if (cd.getProp "created_at").truthy then cd
         else cd.setProp "created_at" (.vStr now)))))) ++
        H m.signatureKey (iv ++ cbcTotal A m.encryptionKey iv (pkcs7Pad (strBytes (stringifyVal
          (if (cd.getProp "created_at").truthy then cd
           else cd.setProp "created_at" (.vStr now))))))))) ≠ "" := by
    apply string_mk_ne_empty
    apply urlSafeChars_b64_ne_nil
    intro hnil
    rcases List.append_eq_nil.mp hnil with ⟨h1, _⟩
    rcases List.append_eq_nil.mp h1 with ⟨h2, _⟩
    exact hiv h2
  simp only []
  rw [if_neg htok]
  simp only [resolvePathAbs, hop]
  rw [if_neg Bool.false_ne_true]
  simp only [String.append_assoc]

theorem generateLoginUrl_urlFail (E : JSEnv) (A H : List Nat → List Nat → List Nat)
    (hA : ∀ k b, E.aesBlock k b = .ok (A k b))
    (hH : ∀ k msg, E.hmacSha256 k msg = .ok (H k msg))
    (m : Multipass) (iv : List Nat) (now : String) (cd : JSVal)
    (htr : cd.truthy = true) (hobj : cd.typeof = "object") (hiv : iv ≠ [])
    (hop : m.storeUrl.opaquePath = true) :
    m.generateLoginUrl E iv now cd =
      ((if (cd.getProp "created_at").truthy then cd
        else cd.setProp "created_at" (.vStr now)),
       .error (.error "Failed to construct login URL: Invalid URL")) := by
  have hnn : cd.isNull = false := truthy_isNull_false cd htr
  have hcond : (!cd.truthy || cd.typeof != "object") = false := by
    rw [htr, hobj]
    simp
  unfold Multipass.generateLoginUrl
  simp only [hcond]
  rw [if_neg Bool.false_ne_true]
  rw [generateToken_ok E A H hA hH m iv now cd hobj hnn]
  have htok : String.mk (urlSafeChars (base64Encode
      ((iv ++ cbcTotal A m.encryptionKey iv (pkcs7Pad (strBytes (stringifyVal
        (if (cd.getProp "created_at").truthy then cd
         else cd.setProp "created_at" (.vStr now)))))) ++
        H m.signatureKey (iv ++ cbcTotal A m.encryptionKey iv (pkcs7Pad (strBytes (stringifyVal
          (if (cd.getProp "created_at").truthy then cd
           else cd.setProp "created_at" (.vStr now))))))))) ≠ "" := by
    apply string_mk_ne_empty
    apply urlSafeChars_b64_ne_nil
    intro hnil
    rcases List.append_eq_nil.mp hnil with ⟨h1, _⟩
    rcases List.append_eq_nil.mp h1 with ⟨h2, _⟩
    exact hiv h2
  simp only []
  rw [if_neg htok]
  simp only [resolvePathAbs, hop, if_true]

theorem encrypt_ok_inv (E : JSEnv) (m : Multipass) (iv : List Nat) (cd : JSVal)
    (ct : List Nat) (h : m.encrypt E iv cd = .ok ct) :
    ∃ rest, cbcEncrypt E m.encryptionKey iv (pkcs7Pad (strBytes (stringifyVal cd))) = .ok rest ∧
      ct = iv ++ rest := by
  unfold Multipass.encrypt at h
  split at h
  · cases h
  · split at h
    · cases h
    · rename_i rest hr
      cases h
      exact ⟨rest, hr, rfl⟩

theorem generateToken_snd_ok_inv (E : JSEnv) (m : Multipass) (iv : List Nat)
    (now : String) (cd : JSVal) (tok : String)
    (h : (m.generateToken E iv now cd).snd = .ok tok) :
    ∃ cd2 ct sig, m.encrypt E iv cd2 = .ok ct ∧
      E.hmacSha256 m.signatureKey ct = .ok sig ∧
      tok = String.mk (urlSafeChars (base64Encode (ct ++ sig))) := by
  unfold Multipass.generateToken at h
  split at h
  · simp at h
  · simp only [] at h
    split at h
    · simp at h
    · rename_i ct hct
      unfold Multipass.sign at h
      split at h
      · simp at h
      · rename_i sig hsig
        simp only [Except.ok.injEq] at h
        exact ⟨_, ct, sig, hct, hsig, h.symm⟩

theorem construct_ok (E : JSEnv) (s u : String) (urlObj : URLObj)
    (hLen : (E.sha256 (strBytes s)).length = 32)
    (hs : (jsTrim s).length ≠ 0) (hu : (jsTrim u).length ≠ 0)
    (hurl : E.parseURL u = some urlObj) :
    Multipass.construct E (.vStr s) (.vStr u) =
      .ok ⟨(E.sha256 (strBytes s)).take 16, ((E.sha256 (strBytes s)).drop 16).take 16, urlObj⟩ := by
  have hstep : Multipass.construct E (.vStr s) (.vStr u) =
      (if (jsTrim s).length = 0 then
        Except.error (JSError.error "Invalid multipassSecret: Expected a non-empty string.")
      else
        if (jsTrim u).length = 0 then
          Except.error (JSError.error "Invalid storeUrl: Expected a non-empty string.")
        else
          match E.parseURL u with
          | none => Except.error (JSError.error "Invalid storeUrl: Must be a valid URL string.")
          | some urlObj =>
            if (E.sha256 (strBytes s)).length ≠ 32 then
              Except.error (JSError.error "Unexpected hash length. Ensure SHA-256 is supported.")
            else
              Except.ok ⟨(E.sha256 (strBytes s)).take 16,
                ((E.sha256 (strBytes s)).drop 16).take 16, urlObj⟩) := rfl
  rw [hstep, if_neg hs, if_neg hu, hurl]
  simp only []
  rw [if_neg (by simp [hLen])]

theorem construct_ok_inv (E : JSEnv) (sec url : JSVal) (m : Multipass)
    (h : Multipass.construct E sec url = .ok m) :
    ∃ s u urlObj, sec = .vStr s ∧ (jsTrim s).length ≠ 0 ∧ url = .vStr u ∧
      (jsTrim u).length ≠ 0 ∧ E.parseURL u = some urlObj ∧
      (E.sha256 (strBytes s)).length = 32 ∧
      m = ⟨(E.sha256 (strBytes s)).take 16, ((E.sha256 (strBytes s)).drop 16).take 16, urlObj⟩ := by
  unfold Multipass.construct at h
  cases sec with
  | vStr s =>
    simp only [] at h
    split at h
    · cases h
    · cases url with
      | vStr u =>
        simp only [] at h
        split at h
        · cases h
        · rename_i hs hu
          cases hurl : E.parseURL u with
          | none => rw [hurl] at h; cases h
          | some urlObj =>
            rw [hurl] at h
            simp only [] at h
            split at h
            · cases h
            · rename_i hlen
              cases h
              exact ⟨s, u, urlObj, rfl, hs, rfl, hu, hurl, by omega, rfl⟩
      | vBool b => cases h
      | vNum n => cases h
      | vNull => cases h
      | vUndefined => cases h
      | vObj fs => cases h
      | vArr xs ps => cases h
  | vBool b => cases h
  | vNum n => cases h
  | vNull => cases h
  | vUndefined => cases h
  | vObj fs => cases h
  | vArr xs ps => cases h

theorem generateToken_fst (E : JSEnv) (m : Multipass) (iv : List Nat)
    (now : String) (cd : JSVal) (hobj : cd.typeof = "object") (hnn : cd.isNull = false) :
    (m.generateToken E iv now cd).fst =
      (if (cd.getProp "created_at").truthy then cd
       else cd.setProp "created_at" (.vStr now)) := by
  have hcond : (cd.typeof != "object" || cd.isNull) = false := by
    rw [hobj, hnn]
    simp
  unfold Multipass.generateToken
  simp only [hcond]
  rw [if_neg Bool.false_ne_true]
  cases hE : m.encrypt E iv (if (cd.getProp "created_at").truthy then cd
      else cd.setProp "created_at" (.vStr now)) with
  | error e => simp [hE]
  | ok ct =>
    cases hS : E.hmacSha256 m.signatureKey ct with
    | error e => simp [Multipass.sign, hE, hS]
    | ok sig => simp [Multipass.sign, hE, hS]

theorem generateToken_snd_valid (E : JSEnv) (m : Multipass) (iv : List Nat)
    (now : String) (cd : JSVal) (hobj : cd.typeof = "object") (hnn : cd.isNull = false) :
    (m.generateToken E iv now cd).snd =
      (match m.encrypt E iv (if (cd.getProp "created_at").truthy then cd
          else cd.setProp "created_at" (.vStr now)) with
       | .error _ => .error (.error "Token generation failed")
       | .ok ct =>
         match E.hmacSha256 m.signatureKey ct with
         | .error _ => .error (.error "Token generation failed")
         | .ok sig => .ok (String.mk (urlSafeChars (base64Encode (ct ++ sig))))) := by
  have hcond : (cd.typeof != "object" || cd.isNull) = false := by
    rw [hobj, hnn]
    simp
  unfold Multipass.generateToken
  simp only [hcond]
  rw [if_neg Bool.false_ne_true]
  cases hE : m.encrypt E iv (if (cd.getProp "created_at").truthy then cd
      else cd.setProp "created_at" (.vStr now)) with
  | error e => simp [hE]
  | ok ct =>
    cases hS : E.hmacSha256 m.signatureKey ct with
    | error e => simp [Multipass.sign, hE, hS]
    | ok sig => simp [Multipass.sign, hE, hS]

theorem generateToken_snd_error (E : JSEnv) (m : Multipass) (iv : List Nat)
    (now : String) (cd : JSVal) (e : JSError)
    (h : (m.generateToken E iv now cd).snd = .error e) :
    e = .typeError "customerData must be a non-null object" ∨
      e = .error "Token generation failed" := by
  unfold Multipass.generateToken at h
  split at h
  · simp only [] at h
    cases h
    exact .inl rfl
  · simp only [] at h
    split at h
    · cases h
      exact .inr rfl
    · unfold Multipass.sign at h
      split at h
      · cases h
        exact .inr rfl
      · cases h

/-! ### Concrete fixtures used by witnesses and counterexamples -/

/-- A concrete environment: simple stand-ins for the platform primitives
that satisfy the length and byte-range facts of the real ones. -/
def envW : JSEnv where
  sha256 := fun _ => List.range 32
  aesBlock := fun _ _ => .ok (List.replicate 16 7)
  hmacSha256 := fun _ _ => .ok (List.replicate 32 9)
  parseURL := fun u =>
    if u = "" then none
    else if u = "mailto:foo@bar" then some ⟨"null", true⟩
    else some ⟨u, false⟩

/-- A concrete environment whose cipher primitive always throws. -/
def envFail : JSEnv where
  sha256 := fun _ => List.range 32
  aesBlock := fun _ _ => .error (.error "cipher failure")
  hmacSha256 := fun _ _ => .ok (List.replicate 32 9)
  parseURL := fun u =>
    if u = "" then none
    else if u = "mailto:foo@bar" then some ⟨"null", true⟩
    else some ⟨u, false⟩

def funAW : List Nat → List Nat → List Nat := fun _ _ => List.replicate 16 7

def funHW : List Nat → List Nat → List Nat := fun _ _ => List.replicate 32 9

def mW : Multipass :=
  ⟨(List.range 32).take 16, ((List.range 32).drop 16).take 16, ⟨"https://shop.example", false⟩⟩

/-- The codec obtained from the store URL "mailto:foo@bar": the URL parses
(so construction succeeds) but its path is opaque, so resolving the login
path against it throws. -/
def mOpaque : Multipass :=
  ⟨(List.range 32).take 16, ((List.range 32).drop 16).take 16, ⟨"null", true⟩⟩

def ivW : List Nat := List.replicate 16 0

def ivW2 : List Nat := 1 :: List.replicate 15 0

def nowW : String := "2024-01-01T00:00:00.000Z"

def cdW : JSVal := .vObj [("email", .vStr "user@example.com")]

def cdCreated : JSVal := .vObj [("created_at", .vStr "")]

/-! ### Claims -/

/-- C1: for every codec instance and every non-null object of customer
attributes, in a run where the cipher and HMAC primitives compute the total
functions A and H, generateToken returns the string obtained by taking the
bytes IV (16 bytes) || AES-128-CBC ciphertext (a multiple of 16 bytes) ||
HMAC-SHA256 signature (32 bytes), encoding them with standard base64,
replacing every '+' with '-', every '/' with '_', and stripping all '='
padding characters; the signature is the HMAC digest, under the signature
key, of exactly the IV || ciphertext bytes. -/
theorem c1_token_wire_format (E : JSEnv) (A H : List Nat → List Nat → List Nat)
    (m : Multipass) (iv : List Nat) (now : String) (cd : JSVal)
    (hA : ∀ k b, E.aesBlock k b = .ok (A k b))
    (hH : ∀ k msg, E.hmacSha256 k msg = .ok (H k msg))
    (hA16 : ∀ k b, (A k b).length = 16)
    (hH32 : ∀ k msg, (H k msg).length = 32)
    (hIv : iv.length = 16)
    (hobj : cd.typeof = "object") (hnn : cd.isNull = false) :
    (let cd2 := if (cd.getProp "created_at").truthy then cd
                else cd.setProp "created_at" (.vStr now)
     let ct := cbcTotal A m.encryptionKey iv (pkcs7Pad (strBytes (stringifyVal cd2)))
     let sig := H m.signatureKey (iv ++ ct)
     (m.generateToken E iv now cd).snd =
       .ok (String.mk (urlSafeChars (base64Encode ((iv ++ ct) ++ sig))))
     ∧ iv.length = 16 ∧ ct.length % 16 = 0 ∧ sig.length = 32) := by
  refine ⟨?_, hIv, ?_, hH32 _ _⟩
  · rw [generateToken_ok E A H hA hH m iv now cd hobj hnn]
  · rw [cbcTotal_length' A hA16 _ _ _ (pkcs7Pad_mod _)]
    exact pkcs7Pad_mod _

/-- C1 witness: the wire-format equation evaluated at a concrete codec,
IV, timestamp and attribute object. -/
theorem c1_witness :
    (let cd2 := if (cdW.getProp "created_at").truthy then cdW
                else cdW.setProp "created_at" (.vStr nowW)
     let ct := cbcTotal funAW mW.encryptionKey ivW (pkcs7Pad (strBytes (stringifyVal cd2)))
     let sig := funHW mW.signatureKey (ivW ++ ct)
     (mW.generateToken envW ivW nowW cdW).snd =
       .ok (String.mk (urlSafeChars (base64Encode ((ivW ++ ct) ++ sig))))
     ∧ ivW.length = 16 ∧ ct.length % 16 = 0 ∧ sig.length = 32) :=
  c1_token_wire_format envW funAW funHW mW ivW nowW cdW
    (fun _ _ => rfl) (fun _ _ => rfl)
    (fun _ _ => (by decide : (List.replicate 16 7).length = 16))
    (fun _ _ => (by decide : (List.replicate 32 9).length = 32))
    (by decide) rfl rfl

/-- C2 (amended): for every secret string that still contains a
non-whitespace character (the code trims before testing emptiness, so a
whitespace-only secret is rejected — see the counterexample), construction
derives the key pair by hashing the UTF-8 bytes of the secret with SHA-256
(32 bytes, enforced by an explicit length check), taking bytes 0..15 as
the encryption key and bytes 16..31 as the signature key; both keys are 16
bytes and constructing twice from the same secret yields the same pair. -/
theorem c2_key_derivation_amended (E : JSEnv) (s u : String) (urlObj : URLObj)
    (hLen : (E.sha256 (strBytes s)).length = 32)
    (hs : (jsTrim s).length ≠ 0) (hu : (jsTrim u).length ≠ 0)
    (hurl : E.parseURL u = some urlObj) :
    Multipass.construct E (.vStr s) (.vStr u) =
      .ok ⟨(E.sha256 (strBytes s)).take 16,
        ((E.sha256 (strBytes s)).drop 16).take 16, urlObj⟩
    ∧ ((E.sha256 (strBytes s)).take 16).length = 16
    ∧ (((E.sha256 (strBytes s)).drop 16).take 16).length = 16
    ∧ (∀ m1 m2, Multipass.construct E (.vStr s) (.vStr u) = .ok m1 →
        Multipass.construct E (.vStr s) (.vStr u) = .ok m2 →
        m1.encryptionKey = m2.encryptionKey ∧ m1.signatureKey = m2.signatureKey) := by
  refine ⟨construct_ok E s u urlObj hLen hs hu hurl, ?_, ?_, ?_⟩
  · simp [List.length_take, hLen]
  · simp [List.length_take, List.length_drop, hLen]
  · intro m1 m2 h1 h2
    have h12 : m1 = m2 := by
      have := h1.symm.trans h2
      exact Except.ok.inj this
    rw [h12]
    exact ⟨rfl, rfl⟩

/-- C2 witness: key derivation evaluated at a concrete environment,
secret and store URL. -/
theorem c2_witness :
    Multipass.construct envW (.vStr "multipass-secret") (.vStr "https://shop.example") =
      .ok ⟨(envW.sha256 (strBytes "multipass-secret")).take 16,
        ((envW.sha256 (strBytes "multipass-secret")).drop 16).take 16,
        ⟨"https://shop.example", false⟩⟩
    ∧ ((envW.sha256 (strBytes "multipass-secret")).take 16).length = 16
    ∧ (((envW.sha256 (strBytes "multipass-secret")).drop 16).take 16).length = 16
    ∧ (∀ m1 m2,
        Multipass.construct envW (.vStr "multipass-secret") (.vStr "https://shop.example") = .ok m1 →
        Multipass.construct envW (.vStr "multipass-secret") (.vStr "https://shop.example") = .ok m2 →
        m1.encryptionKey = m2.encryptionKey ∧ m1.signatureKey = m2.signatureKey) :=
  c2_key_derivation_amended envW "multipass-secret" "https://shop.example"
    ⟨"https://shop.example", false⟩ (by decide) (by decide) (by decide) rfl

/-- C2 counterexample: the secret " " is a non-empty string, the store URL
parses, yet construction fails and derives no key pair, against the claim
as stated for every non-empty string secret. -/
theorem c2_counterexample :
    (" " : String) ≠ "" ∧
    (envW.parseURL "https://shop.example").isSome = true ∧
    Multipass.construct envW (.vStr " ") (.vStr "https://shop.example") =
      .error (.error "Invalid multipassSecret: Expected a non-empty string.") := by
  refine ⟨by decide, by decide, ?_⟩
  rfl

/-- C4 (amended): construction fails with a configuration error, constructing
no instance, exactly when the secret argument is a non-string or a string
that is empty after trimming, or the storeUrl argument is a non-string or a
string that is empty after trimming, or storeUrl does not parse as a URL
(the original claim said "empty"; the code trims first, so whitespace-only
arguments are also rejected — see the counterexample); every other pair of
arguments constructs an instance, given that the hash primitive returns 32
bytes. -/
theorem c4_construction_errors_amended (E : JSEnv)
    (hLen : ∀ bs, (E.sha256 bs).length = 32) (sec url : JSVal) :
    (∃ m, Multipass.construct E sec url = .ok m) ↔
      (∃ s u, sec = .vStr s ∧ (jsTrim s).length ≠ 0 ∧ url = .vStr u ∧
        (jsTrim u).length ≠ 0 ∧ (E.parseURL u).isSome = true) := by
  constructor
  · rintro ⟨m, hm⟩
    obtain ⟨s, u, urlObj, rfl, hs, rfl, hu, hurl, _, _⟩ := construct_ok_inv E sec url m hm
    exact ⟨s, u, rfl, hs, rfl, hu, by rw [hurl]; rfl⟩
  · rintro ⟨s, u, rfl, hs, rfl, hu, hsome⟩
    obtain ⟨urlObj, hurl⟩ := Option.isSome_iff_exists.mp hsome
    exact ⟨_, construct_ok E s u urlObj (hLen _) hs hu hurl⟩

/-- C4 witness: the success criterion evaluated at a concrete environment
and concrete arguments. -/
theorem c4_witness :
    (∃ m, Multipass.construct envW (.vStr "sek") (.vStr "https://shop2.example") = .ok m) ↔
      (∃ s u, JSVal.vStr "sek" = .vStr s ∧ (jsTrim s).length ≠ 0 ∧
        JSVal.vStr "https://shop2.example" = .vStr u ∧
        (jsTrim u).length ≠ 0 ∧ (envW.parseURL u).isSome = true) :=
  c4_construction_errors_amended envW
    (fun _ => (by decide : (List.range 32).length = 32)) _ _

/-- C4 counterexample: the secret " " is a non-empty string and the store
URL parses, so the claim as stated says construction succeeds; the code
rejects it because the trimmed secret is empty, and constructs no
instance. -/
theorem c4_counterexample :
    (" " : String) ≠ "" ∧
    (envW.parseURL "https://shop2.example").isSome = true ∧
    Multipass.construct envW (.vStr " ") (.vStr "https://shop2.example") =
      .error (.error "Invalid multipassSecret: Expected a non-empty string.") := by
  refine ⟨by decide, by decide, ?_⟩
  rfl

/-- C5 (amended): generateToken modifies the caller's attributes mapping
exactly once and only when the current created_at value is falsy (absent,
undefined, null, false, 0, or the empty string), in which case it sets
created_at to the current timestamp string before encrypting; for every
attributes mapping whose created_at holds a truthy value, the mapping is
passed on unchanged (the original claim said "absent": a present but falsy
created_at, e.g. the empty string, is also overwritten — see the
counterexample). -/
theorem c5_created_at_injection_amended (E : JSEnv) (m : Multipass)
    (iv : List Nat) (now : String) (cd : JSVal)
    (hobj : cd.typeof = "object") (hnn : cd.isNull = false) :
    ((cd.getProp "created_at").truthy = true → (m.generateToken E iv now cd).fst = cd)
    ∧ ((cd.getProp "created_at").truthy = false →
        (m.generateToken E iv now cd).fst = cd.setProp "created_at" (.vStr now)) := by
  constructor
  · intro h
    rw [generateToken_fst E m iv now cd hobj hnn, if_pos h]
  · intro h
    rw [generateToken_fst E m iv now cd hobj hnn, if_neg (by simp [h])]

/-- C5 witness: the injection behaviour evaluated at a concrete codec and
an attributes object without created_at. -/
theorem c5_witness :
    ((cdW.getProp "created_at").truthy = true →
      (mW.generateToken envW ivW nowW cdW).fst = cdW)
    ∧ ((cdW.getProp "created_at").truthy = false →
        (mW.generateToken envW ivW nowW cdW).fst = cdW.setProp "created_at" (.vStr nowW)) :=
  c5_created_at_injection_amended envW mW ivW nowW cdW rfl rfl

/-- C5 counterexample: an attributes mapping in which created_at is present
(with the empty-string value) is nevertheless modified by generateToken,
against the claim that a mapping with created_at present is passed on with
no field modified. -/
theorem c5_counterexample :
    cdCreated.getProp "created_at" = .vStr "" ∧
    (mW.generateToken envW ivW nowW cdCreated).fst = .vObj [("created_at", .vStr nowW)] ∧
    (mW.generateToken envW ivW nowW cdCreated).fst ≠ cdCreated := by
  have hfst : (mW.generateToken envW ivW nowW cdCreated).fst =
      .vObj [("created_at", .vStr nowW)] := by
    rw [generateToken_fst envW mW ivW nowW cdCreated rfl rfl]
    rfl
  refine ⟨rfl, hfst, ?_⟩
  rw [hfst]
  intro hc
  simp [cdCreated, nowW] at hc

/-- C6: for every non-null object of customer attributes, in a run where the
cipher primitive computes the total function A, encrypt returns the 16-byte
IV followed by the CBC encryption under the encryption key of the UTF-8
bytes of the JSON serialization of the attributes, PKCS#7-padded, so the
output length is 16 + N bytes with N a positive multiple of 16; for null or
non-object input, encrypt rejects with an error (the thrown
Error('Invalid input: customerData must be a non-null object')) and
produces no output. -/
theorem c6_encrypt_output (E : JSEnv) (A : List Nat → List Nat → List Nat)
    (m : Multipass) (iv : List Nat) (cd : JSVal)
    (hA : ∀ k b, E.aesBlock k b = .ok (A k b))
    (hA16 : ∀ k b, (A k b).length = 16)
    (hIv : iv.length = 16) :
    ((cd.typeof = "object" ∧ cd.isNull = false) →
      ∃ N, m.encrypt E iv cd =
          .ok (iv ++ cbcTotal A m.encryptionKey iv (pkcs7Pad (strBytes (stringifyVal cd))))
        ∧ (iv ++ cbcTotal A m.encryptionKey iv (pkcs7Pad (strBytes (stringifyVal cd)))).length
            = 16 + N
        ∧ N % 16 = 0 ∧ 0 < N)
    ∧ (¬(cd.typeof = "object" ∧ cd.isNull = false) →
        m.encrypt E iv cd =
          .error (.error "Invalid input: customerData must be a non-null object")) := by
  constructor
  · rintro ⟨hobj, hnn⟩
    refine ⟨(pkcs7Pad (strBytes (stringifyVal cd))).length,
      encrypt_ok E A hA m iv cd hobj hnn, ?_, pkcs7Pad_mod _, pkcs7Pad_pos _⟩
    rw [List.length_append, hIv, cbcTotal_length' A hA16 _ _ _ (pkcs7Pad_mod _)]
  · exact encrypt_invalid E m iv cd

/-- C6 witness: both branches evaluated concretely — the success shape on a
concrete object, and the rejection of null. -/
theorem c6_witness :
    (∃ N, mW.encrypt envW ivW cdW =
        .ok (ivW ++ cbcTotal funAW mW.encryptionKey ivW (pkcs7Pad (strBytes (stringifyVal cdW))))
      ∧ (ivW ++ cbcTotal funAW mW.encryptionKey ivW (pkcs7Pad (strBytes (stringifyVal cdW)))).length
          = 16 + N
      ∧ N % 16 = 0 ∧ 0 < N)
    ∧ mW.encrypt envW ivW .vNull =
        .error (.error "Invalid input: customerData must be a non-null object") :=
  ⟨(c6_encrypt_output envW funAW mW ivW cdW (fun _ _ => rfl)
      (fun _ _ => (by decide : (List.replicate 16 7).length = 16)) (by decide)).1 ⟨rfl, rfl⟩,
    (c6_encrypt_output envW funAW mW ivW .vNull (fun _ _ => rfl)
      (fun _ _ => (by decide : (List.replicate 16 7).length = 16)) (by decide)).2
      (by intro h; exact absurd h.2 (by simp [JSVal.isNull]))⟩

/-- C3 counterexample: the store URL "mailto:foo@bar" parses, so the codec
constructs, but its path is opaque: resolving the login path against it
throws, the catch re-surfaces a URL-construction failure, and no login URL
is returned — against the claim as stated for every codec constructed from
a valid secret and base URL. -/
theorem c3_counterexample :
    Multipass.construct envW (.vStr "sec3") (.vStr "mailto:foo@bar") = .ok mOpaque ∧
    (mOpaque.generateLoginUrl envW ivW nowW cdW).snd =
      .error (.error "Failed to construct login URL: Invalid URL") := by
  constructor
  · rfl
  · rw [generateLoginUrl_urlFail envW funAW funHW (fun _ _ => rfl) (fun _ _ => rfl)
      mOpaque ivW nowW cdW rfl rfl (by decide) rfl]

/-- C3 (amended): for every codec whose validated store URL has a
hierarchical (non-opaque) path, and every non-null object of customer
attributes, in a run where the primitives compute the total functions A
and H, generateLoginUrl returns an absolute URL on the configured base:
the origin of the store URL followed by the path
'/account/login/multipass/' followed by the percent-encoded token (which
equals the token itself, the token alphabet being unreserved), and the
token contains no '+', '/', or '=' characters. For an opaque-path base
such as mailto:foo@bar — which also constructs — URL resolution throws and
a URL-construction failure is surfaced instead (see the counterexample). -/
theorem c3_login_url_shape_amended (E : JSEnv) (A H : List Nat → List Nat → List Nat)
    (m : Multipass) (iv : List Nat) (now : String) (cd : JSVal)
    (hA : ∀ k b, E.aesBlock k b = .ok (A k b))
    (hH : ∀ k msg, E.hmacSha256 k msg = .ok (H k msg))
    (hIv : iv.length = 16)
    (htr : cd.truthy = true) (hobj : cd.typeof = "object")
    (hop : m.storeUrl.opaquePath = false) :
    (let cd2 := if (cd.getProp "created_at").truthy then cd
                else cd.setProp "created_at" (.vStr now)
     let ct := iv ++ cbcTotal A m.encryptionKey iv (pkcs7Pad (strBytes (stringifyVal cd2)))
     let tok := String.mk (urlSafeChars (base64Encode (ct ++ H m.signatureKey ct)))
     (m.generateLoginUrl E iv now cd).snd =
       .ok (m.storeUrl.origin ++ "/account/login/multipass/" ++ encodeURIComponent tok)
     ∧ encodeURIComponent tok = tok
     ∧ ∀ c ∈ tok.data, c ≠ '+' ∧ c ≠ '/' ∧ c ≠ '=') := by
  have hiv' : iv ≠ [] := by
    intro h
    rw [h] at hIv
    simp at hIv
  refine ⟨?_, ?_, ?_⟩
  · rw [generateLoginUrl_ok E A H hA hH m iv now cd htr hobj hiv' hop]
  · apply encodeURIComponent_of_unreserved
    intro c hc
    exact (urlSafeChars_b64_spec _ c hc).1
  · intro c hc
    have h := urlSafeChars_b64_spec _ c hc
    exact ⟨h.2.1, h.2.2.1, h.2.2.2⟩

/-- C3 witness: the login-URL shape evaluated at a concrete codec (with a
hierarchical store URL), IV, timestamp and attribute object. -/
theorem c3_witness :
    (let cd2 := if (cdW.getProp "created_at").truthy then cdW
                else cdW.setProp "created_at" (.vStr nowW)
     let ct := ivW ++ cbcTotal funAW mW.encryptionKey ivW (pkcs7Pad (strBytes (stringifyVal cd2)))
     let tok := String.mk (urlSafeChars (base64Encode (ct ++ funHW mW.signatureKey ct)))
     (mW.generateLoginUrl envW ivW nowW cdW).snd =
       .ok (mW.storeUrl.origin ++ "/account/login/multipass/" ++ encodeURIComponent tok)
     ∧ encodeURIComponent tok = tok
     ∧ ∀ c ∈ tok.data, c ≠ '+' ∧ c ≠ '/' ∧ c ≠ '=') :=
  c3_login_url_shape_amended envW funAW funHW mW ivW nowW cdW
    (fun _ _ => rfl) (fun _ _ => rfl) (by decide) rfl rfl rfl

/-- C7: the token is a deterministic function of the attributes (with the
injected created_at) and the IV: with the same codec, attributes, timestamp
and total primitives, runs with equal IVs produce equal tokens, and runs
with distinct 16-byte IVs (of genuine bytes) produce distinct tokens. -/
theorem c7_token_iv_determinism (E : JSEnv) (A H : List Nat → List Nat → List Nat)
    (m : Multipass) (now : String) (cd : JSVal) (iv1 iv2 : List Nat)
    (hA : ∀ k b, E.aesBlock k b = .ok (A k b))
    (hH : ∀ k msg, E.hmacSha256 k msg = .ok (H k msg))
    (hA16 : ∀ k b, (A k b).length = 16)
    (hH32 : ∀ k msg, (H k msg).length = 32)
    (h1 : iv1.length = 16) (h2 : iv2.length = 16)
    (hb1 : ∀ b ∈ iv1, b < 256) (hb2 : ∀ b ∈ iv2, b < 256)
    (hAb : ∀ k b, ∀ x ∈ A k b, x < 256)
    (hHb : ∀ k msg, ∀ x ∈ H k msg, x < 256)
    (hobj : cd.typeof = "object") (hnn : cd.isNull = false) :
    (iv1 = iv2 →
      (m.generateToken E iv1 now cd).snd = (m.generateToken E iv2 now cd).snd)
    ∧ (iv1 ≠ iv2 →
      (m.generateToken E iv1 now cd).snd ≠ (m.generateToken E iv2 now cd).snd) := by
  constructor
  · intro h
    rw [h]
  · intro hne heq
    apply hne
    rw [generateToken_ok E A H hA hH m iv1 now cd hobj hnn,
      generateToken_ok E A H hA hH m iv2 now cd hobj hnn] at heq
    simp only [Except.ok.injEq] at heq
    have hdata := congrArg String.data heq
    set cd2 := (if (cd.getProp "created_at").truthy then cd
      else cd.setProp "created_at" (.vStr now)) with hcd2
    set P := pkcs7Pad (strBytes (stringifyVal cd2)) with hP
    set ct1 := cbcTotal A m.encryptionKey iv1 P with hc1
    set ct2 := cbcTotal A m.encryptionKey iv2 P with hc2
    have hPmod : P.length % 16 = 0 := by
      rw [hP]
      exact pkcs7Pad_mod _
    have hl1 : ct1.length = P.length := by
      rw [hc1]
      exact cbcTotal_length' A hA16 _ _ _ hPmod
    have hl2 : ct2.length = P.length := by
      rw [hc2]
      exact cbcTotal_length' A hA16 _ _ _ hPmod
    have hbs1 : ∀ b ∈ (iv1 ++ ct1) ++ H m.signatureKey (iv1 ++ ct1), b < 256 := by
      intro x hx
      rcases List.mem_append.mp hx with hx | hx
      · rcases List.mem_append.mp hx with hx | hx
        · exact hb1 x hx
        · rw [hc1] at hx
          exact cbcTotal_bytes_lt' A hAb _ _ _ x hx
      · exact hHb _ _ x hx
    have hbs2 : ∀ b ∈ (iv2 ++ ct2) ++ H m.signatureKey (iv2 ++ ct2), b < 256 := by
      intro x hx
      rcases List.mem_append.mp hx with hx | hx
      · rcases List.mem_append.mp hx with hx | hx
        · exact hb2 x hx
        · rw [hc2] at hx
          exact cbcTotal_bytes_lt' A hAb _ _ _ x hx
      · exact hHb _ _ x hx
    have hlen : ((iv1 ++ ct1) ++ H m.signatureKey (iv1 ++ ct1)).length =
        ((iv2 ++ ct2) ++ H m.signatureKey (iv2 ++ ct2)).length := by
      simp only [List.length_append, hH32, hl1, hl2, h1, h2]
    have hbs := urlSafeChars_b64_inj _ _ hbs1 hbs2 hlen hdata
    have houter := List.append_inj hbs
      (by simp only [List.length_append, hl1, hl2, h1, h2])
    exact (List.append_inj houter.1 (h1.trans h2.symm)).1

/-- C7 witness: equal IVs give equal tokens and two concrete distinct IVs
give distinct tokens, at a concrete codec and attribute object. -/
theorem c7_witness :
    (ivW = ivW2 →
      (mW.generateToken envW ivW nowW cdW).snd = (mW.generateToken envW ivW2 nowW cdW).snd)
    ∧ (ivW ≠ ivW2 →
      (mW.generateToken envW ivW nowW cdW).snd ≠ (mW.generateToken envW ivW2 nowW cdW).snd) :=
  c7_token_iv_determinism envW funAW funHW mW nowW cdW ivW ivW2
    (fun _ _ => rfl) (fun _ _ => rfl)
    (fun _ _ => (by decide : (List.replicate 16 7).length = 16))
    (fun _ _ => (by decide : (List.replicate 32 9).length = 32))
    (by decide) (by decide) (by decide) (by decide)
    (fun _ _ => (by decide : ∀ x ∈ List.replicate 16 7, x < 256))
    (fun _ _ => (by decide : ∀ x ∈ List.replicate 32 9, x < 256))
    rfl rfl

/-- C8: whenever an underlying cipher or HMAC primitive fails during token
generation, the failure is caught and re-surfaced to the caller as
Error('Token generation failed'), never silently swallowed; and whenever a
token string is returned at all, encryption and signing both completed, the
token being the full encoding of ciphertext and signature — no partial
ciphertext or partial token is ever returned. -/
theorem c8_error_wrapping (E : JSEnv) (m : Multipass) (iv : List Nat)
    (now : String) (cd : JSVal)
    (hobj : cd.typeof = "object") (hnn : cd.isNull = false) :
    (let cd2 := if (cd.getProp "created_at").truthy then cd
                else cd.setProp "created_at" (.vStr now)
     (∀ e, m.encrypt E iv cd2 = .error e →
        (m.generateToken E iv now cd).snd = .error (.error "Token generation failed"))
     ∧ (∀ ct e, m.encrypt E iv cd2 = .ok ct →
          E.hmacSha256 m.signatureKey ct = .error e →
          (m.generateToken E iv now cd).snd = .error (.error "Token generation failed"))
     ∧ (∀ tok, (m.generateToken E iv now cd).snd = .ok tok →
          ∃ ct sig, m.encrypt E iv cd2 = .ok ct ∧
            E.hmacSha256 m.signatureKey ct = .ok sig ∧
            tok = String.mk (urlSafeChars (base64Encode (ct ++ sig))))) := by
  refine ⟨?_, ?_, ?_⟩
  · intro e he
    rw [generateToken_snd_valid E m iv now cd hobj hnn, he]
  · intro ct e hct he
    rw [generateToken_snd_valid E m iv now cd hobj hnn, hct]
    simp only [he]
  · intro tok htok
    rw [generateToken_snd_valid E m iv now cd hobj hnn] at htok
    split at htok
    · cases htok
    · rename_i ct hct
      split at htok
      · cases htok
      · rename_i sig hsig
        exact ⟨ct, sig, hct, hsig, (Except.ok.inj htok).symm⟩

theorem pkcs7Pad_ne_nil (bs : List Nat) : pkcs7Pad bs ≠ [] := by
  intro h
  have hp := pkcs7Pad_pos bs
  rw [h] at hp
  simp at hp

theorem cbcEncrypt_error_head (E : JSEnv) (key prev bytes : List Nat) (e : JSError)
    (hne : bytes ≠ [])
    (he : E.aesBlock key (List.zipWith (fun a b => a ^^^ b) prev (bytes.take 16)) = .error e) :
    cbcEncrypt E key prev bytes = .error e := by
  rw [cbcEncrypt]
  simp only [dif_neg hne, he]

theorem encrypt_cipher_error (E : JSEnv) (m : Multipass) (iv : List Nat)
    (cd : JSVal) (e : JSError)
    (hobj : cd.typeof = "object") (hnn : cd.isNull = false)
    (he : cbcEncrypt E m.encryptionKey iv (pkcs7Pad (strBytes (stringifyVal cd))) = .error e) :
    m.encrypt E iv cd = .error e := by
  have hcond : (cd.typeof != "object" || cd.isNull) = false := by
    rw [hobj, hnn]
    simp
  unfold Multipass.encrypt
  simp only [hcond]
  rw [if_neg Bool.false_ne_true, he]

/-- C8 witness: with an environment whose cipher primitive throws, a
concrete token-generation run surfaces the wrapped failure. -/
theorem c8_witness :
    (mW.generateToken envFail ivW nowW cdW).snd =
      .error (.error "Token generation failed") :=
  (c8_error_wrapping envFail mW ivW nowW cdW rfl rfl).1 (.error "cipher failure")
    (encrypt_cipher_error envFail mW ivW _ (.error "cipher failure") rfl rfl
      (cbcEncrypt_error_head envFail mW.encryptionKey ivW _ (.error "cipher failure")
        (pkcs7Pad_ne_nil _) rfl))

/-- C9 counterexample: the empty array passes both validation checks of the
opaque-path codec, yet generateLoginUrl returns a URL-construction failure,
not a login URL — against the claim as stated that it returns a login URL. -/
theorem c9_counterexample :
    (JSVal.vArr [] []).truthy = true ∧ (JSVal.vArr [] []).typeof = "object" ∧
    (mOpaque.generateLoginUrl envW ivW nowW (.vArr [] [])).snd =
      .error (.error "Failed to construct login URL: Invalid URL") := by
  refine ⟨rfl, rfl, ?_⟩
  rw [generateLoginUrl_urlFail envW funAW funHW (fun _ _ => rfl) (fun _ _ => rfl)
    mOpaque ivW nowW (.vArr [] []) rfl rfl (by decide) rfl]

/-- C9 (amended, implicit): the attributes validation at the public entry
points accepts any truthy value whose typeof is "object", arrays included:
a truthy object-typed value never trips the validation errors, whatever the
store URL; and when the store URL has a hierarchical (non-opaque) path,
generateLoginUrl applied to the empty array returns a login URL whose token
encrypts the JSON text of the array augmented with created_at (the
augmentation lands in the array's named properties, so that JSON text is
"[]"). For an opaque-path store URL the same call surfaces a
URL-construction failure instead of a login URL (see the counterexample),
still not a validation error. -/
theorem c9_array_accepted_amended (E : JSEnv) (A H : List Nat → List Nat → List Nat)
    (m : Multipass) (iv : List Nat) (now : String)
    (hA : ∀ k b, E.aesBlock k b = .ok (A k b))
    (hH : ∀ k msg, E.hmacSha256 k msg = .ok (H k msg))
    (hIv : iv.length = 16) :
    (∀ cd : JSVal, cd.truthy = true → cd.typeof = "object" →
      (m.generateLoginUrl E iv now cd).snd ≠
        .error (.error "Invalid customerData: Expected a non-empty object")
      ∧ (m.generateToken E iv now cd).snd ≠
        .error (.typeError "customerData must be a non-null object"))
    ∧ (let arr2 := (JSVal.vArr [] []).setProp "created_at" (.vStr now)
       let ct := iv ++ cbcTotal A m.encryptionKey iv (pkcs7Pad (strBytes (stringifyVal arr2)))
       let tok := String.mk (urlSafeChars (base64Encode (ct ++ H m.signatureKey ct)))
       (m.storeUrl.opaquePath = false →
         (m.generateLoginUrl E iv now (.vArr [] [])).snd =
           .ok (m.storeUrl.origin ++ "/account/login/multipass/" ++ encodeURIComponent tok))
       ∧ stringifyVal arr2 = "[]") := by
  have hiv' : iv ≠ [] := by
    intro h
    rw [h] at hIv
    simp at hIv
  constructor
  · intro cd htr hobj
    have hnn := truthy_isNull_false cd htr
    constructor
    · cases hop : m.storeUrl.opaquePath with
      | true =>
        rw [generateLoginUrl_urlFail E A H hA hH m iv now cd htr hobj hiv' hop]
        intro hc
        have hj := JSError.error.inj (Except.error.inj hc)
        exact absurd hj (by decide)
      | false =>
        rw [generateLoginUrl_ok E A H hA hH m iv now cd htr hobj hiv' hop]
        simp
    · rw [generateToken_ok E A H hA hH m iv now cd hobj hnn]
      simp
  · refine ⟨?_, rfl⟩
    intro hop
    rw [generateLoginUrl_ok E A H hA hH m iv now (.vArr [] []) rfl rfl hiv' hop]
    rfl

/-- C9 witness: the array acceptance evaluated at a concrete codec (with a
hierarchical store URL) and IV. -/
theorem c9_witness :
    (∀ cd : JSVal, cd.truthy = true → cd.typeof = "object" →
      (mW.generateLoginUrl envW ivW nowW cd).snd ≠
        .error (.error "Invalid customerData: Expected a non-empty object")
      ∧ (mW.generateToken envW ivW nowW cd).snd ≠
        .error (.typeError "customerData must be a non-null object"))
    ∧ (let arr2 := (JSVal.vArr [] []).setProp "created_at" (.vStr nowW)
       let ct := ivW ++ cbcTotal funAW mW.encryptionKey ivW (pkcs7Pad (strBytes (stringifyVal arr2)))
       let tok := String.mk (urlSafeChars (base64Encode (ct ++ funHW mW.signatureKey ct)))
       (mW.storeUrl.opaquePath = false →
         (mW.generateLoginUrl envW ivW nowW (.vArr [] [])).snd =
           .ok (mW.storeUrl.origin ++ "/account/login/multipass/" ++ encodeURIComponent tok))
       ∧ stringifyVal arr2 = "[]") :=
  c9_array_accepted_amended envW funAW funHW mW ivW nowW
    (fun _ _ => rfl) (fun _ _ => rfl) (by decide)

/-- C10 (implicit): whenever encryption and signing succeed, the token's
underlying byte sequence is at least 64 bytes (16 IV + at least 16
ciphertext + 32 signature) and its URL-safe base64 encoding is a non-empty
string; consequently the empty-or-non-string token error branch inside
generateLoginUrl is unreachable: its error is never returned, for any
attributes value. -/
theorem c10_token_nonempty (E : JSEnv) (m : Multipass) (iv : List Nat) (now : String)
    (hIv : iv.length = 16)
    (hA : ∀ k b r, E.aesBlock k b = .ok r → r.length = 16)
    (hH : ∀ k msg r, E.hmacSha256 k msg = .ok r → r.length = 32) :
    (∀ cd0 ct sig, m.encrypt E iv cd0 = .ok ct →
        E.hmacSha256 m.signatureKey ct = .ok sig →
        64 ≤ (ct ++ sig).length ∧
          String.mk (urlSafeChars (base64Encode (ct ++ sig))) ≠ "")
    ∧ (∀ cd, (m.generateLoginUrl E iv now cd).snd ≠
        .error (.error "Invalid token generated: Expected a non-empty string")) := by
  have hiv' : iv ≠ [] := by
    intro h
    rw [h] at hIv
    simp at hIv
  constructor
  · intro cd0 ct sig hct hsig
    obtain ⟨rest, hr, rfl⟩ := encrypt_ok_inv E m iv cd0 ct hct
    have hrl := cbcEncrypt_ok_length' E hA _ _ _ _ (pkcs7Pad_mod _) hr
    have hpos := pkcs7Pad_pos (strBytes (stringifyVal cd0))
    have hmod := pkcs7Pad_mod (strBytes (stringifyVal cd0))
    have hsl := hH _ _ _ hsig
    constructor
    · simp only [List.length_append, hIv, hrl, hsl]
      omega
    · apply string_mk_ne_empty
      apply urlSafeChars_b64_ne_nil
      intro hnil
      rcases List.append_eq_nil.mp hnil with ⟨hnl, _⟩
      rcases List.append_eq_nil.mp hnl with ⟨hl2, _⟩
      exact hiv' hl2
  · intro cd
    unfold Multipass.generateLoginUrl
    split
    · intro hc
      have hj := JSError.error.inj (Except.error.inj hc)
      exact absurd hj (by decide)
    · split
      · rename_i cd2 e hgt
        have he := generateToken_snd_error E m iv now cd e (by rw [hgt])
        intro hc
        have he' := Except.error.inj hc
        rcases he with he | he <;> rw [he] at he' <;> exact absurd he' (by decide)
      · rename_i cd2 token hgt
        split
        · rename_i htok0
          have hsnd : (m.generateToken E iv now cd).snd = .ok token := by rw [hgt]
          obtain ⟨cdx, ct, sig, hct, hsig, htokeq⟩ :=
            generateToken_snd_ok_inv E m iv now cd token hsnd
          obtain ⟨rest, hr, rfl⟩ := encrypt_ok_inv E m iv cdx ct hct
          exfalso
          have hne : urlSafeChars (base64Encode ((iv ++ rest) ++ sig)) ≠ [] := by
            apply urlSafeChars_b64_ne_nil
            intro hnil
            rcases List.append_eq_nil.mp hnil with ⟨hnl, _⟩
            rcases List.append_eq_nil.mp hnl with ⟨hl2, _⟩
            exact hiv' hl2
          exact string_mk_ne_empty _ hne (htokeq.symm.trans htok0)
        · split
          · simp
          · intro hc
            have hj := JSError.error.inj (Except.error.inj hc)
            exact absurd hj (by decide)

/-- C10 witness: the length and non-emptiness facts and the unreachability
of the invalid-token branch, at a concrete codec and IV. -/
theorem c10_witness :
    (∀ cd0 ct sig, mW.encrypt envW ivW cd0 = .ok ct →
        envW.hmacSha256 mW.signatureKey ct = .ok sig →
        64 ≤ (ct ++ sig).length ∧
          String.mk (urlSafeChars (base64Encode (ct ++ sig))) ≠ "")
    ∧ (∀ cd, (mW.generateLoginUrl envW ivW nowW cd).snd ≠
        .error (.error "Invalid token generated: Expected a non-empty string")) :=
  c10_token_nonempty envW mW ivW nowW (by decide)
    (fun k b r h => by
      injection h with h2
      rw [← h2]
      decide)
    (fun k msg r h => by
      injection h with h2
      rw [← h2]
      decide)
